import Mathlib

/-!
Shallow embedding of `py_entitymatching/feature/extractfeatures.py`
(functions `extract_feature_vecs` and `apply_feat_fns`), the
feature-vector builder of the record-linkage pipeline.

Modelling conventions:
* A pandas `DataFrame` is a column-name list plus a list of rows, each row a
  positional list of cell values (`DFrame`).  Cell access `row[i]` is
  `cell r i`; `candset.columns.index(c)` is `colIndex df c`.
* Python exceptions are the `PyErr` type: `assertionError` for the
  `raise AssertionError(...)` calls of input validation, `keyError` for the
  pandas lookup failure of `l_df.ix[v]` / `r_df.ix[v]` on an absent label
  (the exception names the missing key), and `other` for any exception a
  caller-supplied feature function may raise.  A fallible computation is
  `Except PyErr`.
* `df.set_index(k, drop=False)` followed by `.ix[v]` is label lookup of the
  first row whose `k` column equals `v` (`dfIx`); with the validated unique
  keys it is the unique such row.
* A Python `dict` built by `dict(zip(ks, vs))` is represented by the pair
  list `ks.zip vs` with last-wins lookup (`dictGetD`), matching dict
  overwrite semantics.
* The catalog metadata (`key`, `fk_ltable`, `fk_rtable`, `ltable`, `rtable`,
  `l_key`, `r_key` obtained from `cm.get_metadata_for_candset`) is passed as
  explicit arguments, as in the spec's `build` contract.
-/

set_option autoImplicit false

/-- A cell value of a table: the tables hold strings or integers. -/
inductive Value where
  | str : String → Value
  | int : Int → Value
  deriving DecidableEq, Repr

/-- A positional row of a table (one pandas row / `itertuples` tuple). -/
abbrev Row := List Value

/-- A pandas DataFrame: named columns and positional rows. -/
structure DFrame where
  cols : List String
  rows : List Row
  deriving DecidableEq, Repr

/-- Python exceptions raised by the code or by caller-supplied scorers. -/
inductive PyErr where
  | assertionError : String → PyErr
  | keyError : Value → PyErr
  | other : String → PyErr
  deriving DecidableEq, Repr

/-- One row of the feature table: a feature name and the scoring function
`function(l_tuple, r_tuple)`, which may itself raise. -/
structure Feature where
  feature_name : String
  function : Row → Row → Except PyErr Value

/-- The feature table: a list of named features, in declared order. -/
abbrev FeatureTable := List Feature

/-- Default cell value (only reached outside the validated domain). -/
def vdefault : Value := Value.str ("")

/-- Positional cell access `row[i]`. -/
def cell (r : Row) (i : Nat) : Value := r.getD i vdefault

/-- `df.columns.index c` — position of a column name. -/
def colIndex (df : DFrame) (c : String) : Nat := df.cols.indexOf c

/-- Label lookup `df.set_index(key col at kidx).ix[v]`: the first row whose
`kidx` cell equals `v`; pandas raises `KeyError(v)` when the label is absent. -/
def dfIx (df : DFrame) (kidx : Nat) (v : Value) : Except PyErr Row :=
  match df.rows.find? (fun r => cell r kidx == v) with
  | some r => Except.ok r
  | none => Except.error (PyErr.keyError v)

/-- The column `df[a]` as a value list (positionally aligned with rows). -/
def dfCol (df : DFrame) (a : String) : List Value :=
  df.rows.map (fun r => cell r (colIndex df a))

/-- Last-wins lookup in a Python dict represented as its insertion pairs
(`dict(zip(ks, vs))[k]`, with a default for the unreachable missing case). -/
def dictGetD (d : List (String × Value)) (k : String) : Value :=
  match d.reverse.find? (fun p => p.1 == k) with
  | some p => p.2
  | none => vdefault

/-- The list comprehension `[f(tuple1, tuple2) for f in feat_funcs]`:
left to right, first exception aborts. -/
def applyFuncs (tuple1 tuple2 : Row) : FeatureTable → Except PyErr (List Value)
  | [] => Except.ok []
  | f :: fs =>
    match f.function tuple1 tuple2 with
    | Except.error e => Except.error e
    | Except.ok v =>
      match applyFuncs tuple1 tuple2 fs with
      | Except.error e => Except.error e
      | Except.ok vs => Except.ok (v :: vs)

/-- `apply_feat_fns(tuple1, tuple2, feat_dict)`: apply every feature function
to the two tuples and return `dict(zip(feat_names, feat_vals))`, represented
as the zip list. -/
def apply_feat_fns (tuple1 tuple2 : Row) (feat_dict : FeatureTable) :
    Except PyErr (List (String × Value)) :=
  match applyFuncs tuple1 tuple2 feat_dict with
  | Except.error e => Except.error e
  | Except.ok feat_vals =>
      Except.ok ((feat_dict.map (fun f => f.feature_name)).zip feat_vals)

/-- The memoized lookup of lines 150-156: consult the dict first, otherwise
index the table and record the result (`if v not in d: d[v] = df.ix[v]`). -/
def lookupCached (df : DFrame) (kidx : Nat) (d : List (Value × Row)) (v : Value) :
    Except PyErr (Row × List (Value × Row)) :=
  match d.find? (fun p => p.1 == v) with
  | some p => Except.ok (p.2, d)
  | none =>
    match dfIx df kidx v with
    | Except.ok t => Except.ok (t, d ++ [(v, t)])
    | Except.error e => Except.error e

/-- The per-candidate loop of lines 143-160: for each candset row read the two
foreign-key cells, resolve both records through the `l_dict`/`r_dict` caches,
apply the feature functions, and collect the per-row dicts; the first
exception aborts the whole loop. -/
def extractLoop (l_df r_df : DFrame) (lkidx rkidx lidx ridx : Nat)
    (ft : FeatureTable) :
    List Row → List (Value × Row) → List (Value × Row) →
    Except PyErr (List (List (String × Value)))
  | [], _, _ => Except.ok []
  | row :: rest, l_dict, r_dict =>
    match lookupCached l_df lkidx l_dict (cell row lidx) with
    | Except.error e => Except.error e
    | Except.ok (l_tuple, l_dict') =>
      match lookupCached r_df rkidx r_dict (cell row ridx) with
      | Except.error e => Except.error e
      | Except.ok (r_tuple, r_dict') =>
        match apply_feat_fns l_tuple r_tuple ft with
        | Except.error e => Except.error e
        | Except.ok f =>
          match extractLoop l_df r_df lkidx rkidx lidx ridx ft rest l_dict' r_dict' with
          | Except.error e => Except.error e
          | Except.ok rest' => Except.ok (f :: rest')

/-- Cache-free resolution of one candidate row: resolve the left record, then
the right record, directly from the indexed tables, then apply the features. -/
def resolveRow (l_df r_df : DFrame) (lkidx rkidx lidx ridx : Nat)
    (ft : FeatureTable) (row : Row) : Except PyErr (List (String × Value)) :=
  match dfIx l_df lkidx (cell row lidx) with
  | Except.error e => Except.error e
  | Except.ok l_tuple =>
    match dfIx r_df rkidx (cell row ridx) with
    | Except.error e => Except.error e
    | Except.ok r_tuple => apply_feat_fns l_tuple r_tuple ft

/-- Exception-propagating map (the reference semantics of the loop without
the memo dicts): first failure aborts. -/
def mapE {α β : Type} (f : α → Except PyErr β) : List α → Except PyErr (List β)
  | [] => Except.ok []
  | a :: as =>
    match f a with
    | Except.error e => Except.error e
    | Except.ok b =>
      match mapE f as with
      | Except.error e => Except.error e
      | Except.ok bs => Except.ok (b :: bs)

/-- `gh.list_diff(l1, l2)`.  Modelled from the spec: `generic_helper.py` is
not in the sources; `list_diff` is the order-preserving removal from `l1` of
the elements of `l2` (its use on line 175/189 removes the key and foreign-key
columns from `attrs_before`/`attrs_after`). -/
def list_diff (l1 l2 : List String) : List String :=
  l1.filter (fun x => !(l2.contains x))

/-- `ch.check_attrs_present(table, attrs)`.  Modelled from the spec:
`catalog_helper.py` is not in the sources; every name in `attrs` must exist
as a column of the table. -/
def check_attrs_present (df : DFrame) (attrs : List String) : Bool :=
  attrs.all (fun a => df.cols.contains a)

/-- The `attrs_before != None` / `attrs_after != None` guard of lines 76/87
followed by `check_attrs_present`: `none` passes, `some l` must be present. -/
def attrsOk (df : DFrame) : Option (List String) → Bool
  | none => true
  | some l => check_attrs_present df l

/-- A column holds unique values (a valid key column). -/
def uniqueKey (df : DFrame) (k : String) : Bool :=
  df.cols.contains k && (dfCol df k).Nodup

/-- `cm._validate_metadata_for_candset`.  Modelled from the spec: the catalog
module is not in the sources; per the preconditions, the candidate set, left
and right tables are non-empty, the pair-id column is a valid key of the
candidate set, the two foreign-key columns exist in the candidate set, and
the left/right key columns exist in their tables with unique values. -/
def validate_metadata_for_candset (candset ltable rtable : DFrame)
    (key fk_ltable fk_rtable l_key r_key : String) : Bool :=
  !candset.rows.isEmpty && !ltable.rows.isEmpty && !rtable.rows.isEmpty &&
  uniqueKey candset key &&
  candset.cols.contains fk_ltable && candset.cols.contains fk_rtable &&
  uniqueKey ltable l_key && uniqueKey rtable r_key

/-- Output assembly of lines 163-194: the score block (per-row dict values
re-ordered to `feature_names`), with `attrs_before` minus the key columns
inserted in front (reversed, each at position 0, i.e. in original order),
then the three key columns at positions 0, and `attrs_after` minus the key
columns appended at the end (the code reverses the list and then appends
each name at the growing end, so they land in reversed order).  pandas
inserts whole columns aligned on the candset index, which is row-positional
alignment. -/
def buildOutput (candset : DFrame) (key fk_ltable fk_rtable : String)
    (attrs_before attrs_after : List String) (feature_names : List String)
    (dicts : List (List (String × Value))) : DFrame :=
  let beforeCols := list_diff attrs_before [key, fk_ltable, fk_rtable]
  let afterCols := (list_diff attrs_after [key, fk_ltable, fk_rtable]).reverse
  { cols := [key, fk_ltable, fk_rtable] ++ beforeCols ++ feature_names ++ afterCols,
    rows := (candset.rows.zip dicts).map (fun p =>
      [cell p.1 (colIndex candset key), cell p.1 (colIndex candset fk_ltable),
       cell p.1 (colIndex candset fk_rtable)]
      ++ beforeCols.map (fun a => cell p.1 (colIndex candset a))
      ++ feature_names.map (fun n => dictGetD p.2 n)
      ++ afterCols.map (fun a => cell p.1 (colIndex candset a))) }

def msg_attrs_before : String :=
  "The attributes mentioned in attrs_before is not present in the input table"

def msg_attrs_after : String :=
  "The attributes mentioned in attrs_after is not present in the input table"

def msg_feature_table : String := "The feature table cannot be null"

def msg_metadata : String := "Metadata is not valid for the input candidate set"

/-- `extract_feature_vecs(candset, attrs_before, feature_table, attrs_after)`
with the catalog metadata passed explicitly.  Validation order follows the
source: `attrs_before` presence, `attrs_after` presence, `feature_table is
None`, metadata validation — each failure raising `AssertionError` — then the
indexed lookups, the per-row loop, and the output assembly. -/
def extract_feature_vecs (candset ltable rtable : DFrame)
    (key fk_ltable fk_rtable l_key r_key : String)
    (attrs_before : Option (List String)) (feature_table : Option FeatureTable)
    (attrs_after : Option (List String)) : Except PyErr DFrame :=
  if attrsOk candset attrs_before = false then
    Except.error (PyErr.assertionError msg_attrs_before)
  else if attrsOk candset attrs_after = false then
    Except.error (PyErr.assertionError msg_attrs_after)
  else
    match feature_table with
    | none => Except.error (PyErr.assertionError msg_feature_table)
    | some ft =>
      if validate_metadata_for_candset candset ltable rtable key fk_ltable
          fk_rtable l_key r_key = false then
        Except.error (PyErr.assertionError msg_metadata)
      else
        match extractLoop ltable rtable (colIndex ltable l_key)
            (colIndex rtable r_key) (colIndex candset fk_ltable)
            (colIndex candset fk_rtable) ft candset.rows [] [] with
        | Except.error e => Except.error e
        | Except.ok dicts =>
          Except.ok (buildOutput candset key fk_ltable fk_rtable
            (attrs_before.getD []) (attrs_after.getD [])
            (ft.map (fun f => f.feature_name)) dicts)

/-! Concrete instances used to instantiate the theorems below: two source
tables keyed by `lk`/`rk`, candidate sets keyed by `id` with foreign keys
`lid`/`rid`, and scorers `s1` (name equality) and `s2` (constant). -/

def sampleL : DFrame :=
  { cols := ["lk", "lname"],
    rows := [[Value.int 1, Value.str ("a")], [Value.int 2, Value.str ("b")]] }

def sampleR : DFrame :=
  { cols := ["rk", "rname"], rows := [[Value.int 1, Value.str ("a")]] }

def sampleCand : DFrame :=
  { cols := ["x", "id", "lid", "rid", "y"],
    rows := [[Value.str ("x1"), Value.int 1, Value.int 1, Value.int 1, Value.str ("y1")],
             [Value.str ("x2"), Value.int 2, Value.int 2, Value.int 1, Value.str ("y2")]] }

def featMatch : Feature :=
  { feature_name := "s1",
    function := fun l r =>
      Except.ok (if cell l 1 == cell r 1 then Value.int 1 else Value.int 0) }

def featConst : Feature :=
  { feature_name := "s2", function := fun _ _ => Except.ok (Value.int 7) }

def sampleFT : FeatureTable := [featMatch, featConst]

/-- Candidate set whose second pair references the absent left key `9`. -/
def candMissL : DFrame :=
  { cols := ["id", "lid", "rid"],
    rows := [[Value.int 1, Value.int 1, Value.int 1],
             [Value.int 2, Value.int 9, Value.int 1]] }

/-- A scorer that raises on every pair. -/
def featBoom : Feature :=
  { feature_name := "sb", function := fun _ _ => Except.error (PyErr.other ("boom")) }

def candA : DFrame :=
  { cols := ["id", "lid", "rid"],
    rows := [[Value.int 1, Value.int 1, Value.int 1],
             [Value.int 2, Value.int 2, Value.int 1]] }

/-- `candA` with its two rows swapped. -/
def candB : DFrame :=
  { cols := ["id", "lid", "rid"],
    rows := [[Value.int 2, Value.int 2, Value.int 1],
             [Value.int 1, Value.int 1, Value.int 1]] }

/-- The output of `extract_feature_vecs` on `sampleCand` with
`attrs_before = ["x"]` and `attrs_after = ["y"]`. -/
def sampleOutFull : DFrame :=
  { cols := ["id", "lid", "rid", "x", "s1", "s2", "y"],
    rows := [[Value.int 1, Value.int 1, Value.int 1, Value.str ("x1"),
              Value.int 1, Value.int 7, Value.str ("y1")],
             [Value.int 2, Value.int 2, Value.int 1, Value.str ("x2"),
              Value.int 0, Value.int 7, Value.str ("y2")]] }

/-- The output of `extract_feature_vecs` on `candA` with no preserved
attributes and the two sample scorers. -/
def outNoAttrs : DFrame :=
  { cols := ["id", "lid", "rid", "s1", "s2"],
    rows := [[Value.int 1, Value.int 1, Value.int 1, Value.int 1, Value.int 7],
             [Value.int 2, Value.int 2, Value.int 1, Value.int 0, Value.int 7]] }

/-- The output of `extract_feature_vecs` on `sampleCand` with an empty
feature table. -/
def outEmptyFT : DFrame :=
  { cols := ["id", "lid", "rid"],
    rows := [[Value.int 1, Value.int 1, Value.int 1],
             [Value.int 2, Value.int 2, Value.int 1]] }

/-! Helper lemmas. -/

/-- A memo dict is coherent with its table when every cached entry is the
record the table lookup returns for that key. -/
theorem lookupCached_spec (df : DFrame) (kidx : Nat) (d : List (Value × Row))
    (v : Value) (hinv : ∀ p ∈ d, dfIx df kidx p.1 = Except.ok p.2) :
    (∃ t d', lookupCached df kidx d v = Except.ok (t, d') ∧
       dfIx df kidx v = Except.ok t ∧
       ∀ p ∈ d', dfIx df kidx p.1 = Except.ok p.2) ∨
    (∃ e, lookupCached df kidx d v = Except.error e ∧
       dfIx df kidx v = Except.error e) := by
  unfold lookupCached
  cases hf : d.find? (fun p => p.1 == v) with
  | some p =>
    left
    refine ⟨p.2, d, rfl, ?_, hinv⟩
    have hp := List.find?_some hf
    have hm : p ∈ d := List.mem_of_find?_eq_some hf
    have hpv : p.1 = v := by simpa using hp
    rw [← hpv]
    exact hinv p hm
  | none =>
    cases hx : dfIx df kidx v with
    | ok t =>
      left
      refine ⟨t, d ++ [(v, t)], rfl, rfl, ?_⟩
      intro p hp
      rcases List.mem_append.mp hp with h | h
      · exact hinv p h
      · have hpt : p = (v, t) := by simpa using h
        rw [hpt]
        exact hx
    | error e =>
      right
      exact ⟨e, rfl, rfl⟩

/-- The memoized per-row loop computes exactly what the cache-free
resolution computes, given coherent initial dicts. -/
theorem extractLoop_eq_mapE (l_df r_df : DFrame) (lkidx rkidx lidx ridx : Nat)
    (ft : FeatureTable) (rows : List Row) :
    ∀ (ld rd : List (Value × Row)),
      (∀ p ∈ ld, dfIx l_df lkidx p.1 = Except.ok p.2) →
      (∀ p ∈ rd, dfIx r_df rkidx p.1 = Except.ok p.2) →
      extractLoop l_df r_df lkidx rkidx lidx ridx ft rows ld rd
        = mapE (resolveRow l_df r_df lkidx rkidx lidx ridx ft) rows := by
  induction rows with
  | nil => intro ld rd _ _; rfl
  | cons row rest ih =>
    intro ld rd hl hr
    rcases lookupCached_spec l_df lkidx ld (cell row lidx) hl with
      ⟨lt, ld', hlc, hlx, hinvl⟩ | ⟨e, hlc, hlx⟩
    · rcases lookupCached_spec r_df rkidx rd (cell row ridx) hr with
        ⟨rt, rd', hrc, hrx, hinvr⟩ | ⟨e2, hrc, hrx⟩
      · cases ha : apply_feat_fns lt rt ft with
        | error e =>
          simp [extractLoop, mapE, resolveRow, hlc, hlx, hrc, hrx, ha]
        | ok fdict =>
          cases hm : mapE (resolveRow l_df r_df lkidx rkidx lidx ridx ft) rest with
          | error e =>
            simp [extractLoop, mapE, resolveRow, hlc, hlx, hrc, hrx, ha,
              ih ld' rd' hinvl hinvr, hm]
          | ok rest2 =>
            simp [extractLoop, mapE, resolveRow, hlc, hlx, hrc, hrx, ha,
              ih ld' rd' hinvl hinvr, hm]
      · simp [extractLoop, mapE, resolveRow, hlc, hlx, hrc, hrx]
    · simp [extractLoop, mapE, resolveRow, hlc, hlx]

/-- Length of a successful `mapE`. -/
theorem mapE_ok_length {α β : Type} (f : α → Except PyErr β) (xs : List α) :
    ∀ ys, mapE f xs = Except.ok ys → ys.length = xs.length := by
  induction xs with
  | nil =>
    intro ys h
    simp only [mapE, Except.ok.injEq] at h
    rw [← h]
    rfl
  | cons a as ih =>
    intro ys h
    simp only [mapE] at h
    cases hf : f a with
    | error e => rw [hf] at h; cases h
    | ok b =>
      rw [hf] at h
      cases hm : mapE f as with
      | error e => rw [hm] at h; cases h
      | ok bs =>
        rw [hm] at h
        simp only [Except.ok.injEq] at h
        rw [← h]
        simp [ih bs hm]

/-- Pointwise reading of a successful `mapE`. -/
theorem mapE_ok_get {α β : Type} (f : α → Except PyErr β) (xs : List α) :
    ∀ ys, mapE f xs = Except.ok ys →
      ∀ i (hi : i < xs.length) (hi₂ : i < ys.length),
        f (xs.get ⟨i, hi⟩) = Except.ok (ys.get ⟨i, hi₂⟩) := by
  induction xs with
  | nil => intro ys h i hi; exact absurd hi (by simp)
  | cons a as ih =>
    intro ys h i hi hi₂
    simp only [mapE] at h
    cases hf : f a with
    | error e => rw [hf] at h; cases h
    | ok b =>
      rw [hf] at h
      cases hm : mapE f as with
      | error e => rw [hm] at h; cases h
      | ok bs =>
        rw [hm] at h
        simp only [Except.ok.injEq] at h
        subst h
        cases i with
        | zero => exact hf
        | succ n => exact ih bs hm n (by simpa using hi) (by simpa using hi₂)

/-- `mapE` fails with the first failure: a failing element after a prefix of
successes aborts the whole map with exactly that element's error. -/
theorem mapE_append_error {α β : Type} (f : α → Except PyErr β) (e : PyErr)
    (pre : List α) :
    ∀ (x : α) (post : List α),
      (∀ a ∈ pre, ∃ b, f a = Except.ok b) → f x = Except.error e →
      mapE f (pre ++ x :: post) = Except.error e := by
  induction pre with
  | nil =>
    intro x post _ hx
    simp only [List.nil_append, mapE]
    rw [hx]
  | cons a as ih =>
    intro x post hpre hx
    obtain ⟨b, hb⟩ := hpre a (by simp)
    have hrest := ih x post (fun q hq => hpre q (by simp [hq])) hx
    simp [mapE, hb, hrest]

/-- The feature-function comprehension is an exception-propagating map. -/
theorem applyFuncs_eq_mapE (t1 t2 : Row) (fs : FeatureTable) :
    applyFuncs t1 t2 fs = mapE (fun f => f.function t1 t2) fs := by
  induction fs with
  | nil => rfl
  | cons f fs ih =>
    cases hf : f.function t1 t2 with
    | error e => simp [applyFuncs, mapE, hf]
    | ok v =>
      cases hm : mapE (fun g => g.function t1 t2) fs with
      | error e => simp [applyFuncs, mapE, hf, hm, ih]
      | ok vs => simp [applyFuncs, mapE, hf, hm, ih]

/-- Head lookup in a dict whose tail holds no binding for the key. -/
theorem dictGetD_head (k : String) (v : Value) (d : List (String × Value))
    (hk : ∀ p ∈ d, p.1 ≠ k) : dictGetD ((k, v) :: d) k = v := by
  unfold dictGetD
  rw [List.reverse_cons, List.find?_append]
  have h1 : d.reverse.find? (fun p => p.1 == k) = none :=
    List.find?_eq_none.mpr (fun p hp => by
      simpa using hk p (List.mem_reverse.mp hp))
  rw [h1]
  simp

/-- Lookup of a different key skips the head binding. -/
theorem dictGetD_ne (k m : String) (v : Value) (d : List (String × Value))
    (hne : m ≠ k) : dictGetD ((k, v) :: d) m = dictGetD d m := by
  unfold dictGetD
  rw [List.reverse_cons, List.find?_append]
  have hkm : (k == m) = false := beq_eq_false_iff_ne.mpr (Ne.symm hne)
  have h2 : ([(k, v)] : List (String × Value)).find? (fun p => p.1 == m) = none := by
    simp [List.find?, hkm]
  rw [h2]
  cases d.reverse.find? (fun p => p.1 == m) <;> simp

/-- Reading the dict `dict(zip(ks, vs))` back at the keys `ks`, in order,
returns `vs` when the keys are distinct. -/
theorem map_dictGetD_zip (ks : List String) :
    ∀ vs : List Value, ks.Nodup → ks.length = vs.length →
      ks.map (fun k => dictGetD (ks.zip vs) k) = vs := by
  induction ks with
  | nil =>
    intro vs _ hlen
    simp only [List.length_nil] at hlen
    simp [(List.eq_nil_of_length_eq_zero hlen.symm)]
  | cons k ks ih =>
    intro vs hnd hlen
    cases vs with
    | nil => simp at hlen
    | cons v vs =>
      have hnk : k ∉ ks := (List.nodup_cons.mp hnd).1
      have hk : ∀ p ∈ ks.zip vs, p.1 ≠ k := by
        intro p hp hpk
        exact hnk (hpk ▸ (List.of_mem_zip hp).1)
      rw [List.zip_cons_cons, List.map_cons]
      have hhead : dictGetD ((k, v) :: ks.zip vs) k = v := dictGetD_head k v _ hk
      have htail : ks.map (fun m => dictGetD ((k, v) :: ks.zip vs) m)
          = ks.map (fun m => dictGetD (ks.zip vs) m) := by
        apply List.map_congr_left
        intro m hm
        exact dictGetD_ne k m v _ (fun h => hnk (h ▸ hm))
      rw [hhead, htail, ih vs (List.nodup_cons.mp hnd).2 (by simpa using hlen)]

/-- Unfolding of `extract_feature_vecs` when the feature table is present. -/
theorem extract_some_eq (c l r : DFrame) (key fkl fkr lk rk : String)
    (ab aa : Option (List String)) (ft : FeatureTable) :
    extract_feature_vecs c l r key fkl fkr lk rk ab (some ft) aa =
      if attrsOk c ab = false then
        Except.error (PyErr.assertionError msg_attrs_before)
      else if attrsOk c aa = false then
        Except.error (PyErr.assertionError msg_attrs_after)
      else if validate_metadata_for_candset c l r key fkl fkr lk rk = false then
        Except.error (PyErr.assertionError msg_metadata)
      else
        match extractLoop l r (colIndex l lk) (colIndex r rk)
            (colIndex c fkl) (colIndex c fkr) ft c.rows [] [] with
        | Except.error e => Except.error e
        | Except.ok dicts =>
          Except.ok (buildOutput c key fkl fkr (ab.getD []) (aa.getD [])
            (ft.map (fun f => f.feature_name)) dicts) := rfl

/-- What a successful call guarantees: the checks passed, the cache-free
per-row resolution succeeded on every candidate row, and the output is the
assembled table. -/
theorem extract_ok_dest (c l r : DFrame) (key fkl fkr lk rk : String)
    (ab aa : Option (List String)) (ft : FeatureTable) (out : DFrame)
    (h : extract_feature_vecs c l r key fkl fkr lk rk ab (some ft) aa
      = Except.ok out) :
    attrsOk c ab = true ∧ attrsOk c aa = true ∧
    validate_metadata_for_candset c l r key fkl fkr lk rk = true ∧
    ∃ dicts,
      mapE (resolveRow l r (colIndex l lk) (colIndex r rk) (colIndex c fkl)
        (colIndex c fkr) ft) c.rows = Except.ok dicts ∧
      out = buildOutput c key fkl fkr (ab.getD []) (aa.getD [])
        (ft.map (fun f => f.feature_name)) dicts := by
  rw [extract_some_eq] at h
  by_cases h1 : attrsOk c ab = false
  · rw [if_pos h1] at h; exact absurd h (by simp)
  · rw [if_neg h1] at h
    by_cases h2 : attrsOk c aa = false
    · rw [if_pos h2] at h; exact absurd h (by simp)
    · rw [if_neg h2] at h
      by_cases h3 : validate_metadata_for_candset c l r key fkl fkr lk rk = false
      · rw [if_pos h3] at h; exact absurd h (by simp)
      · rw [if_neg h3] at h
        have hloop := extractLoop_eq_mapE l r (colIndex l lk) (colIndex r rk)
          (colIndex c fkl) (colIndex c fkr) ft c.rows [] []
          (fun p hp => absurd hp (List.not_mem_nil p))
          (fun p hp => absurd hp (List.not_mem_nil p))
        rw [hloop] at h
        cases hm : mapE (resolveRow l r (colIndex l lk) (colIndex r rk)
            (colIndex c fkl) (colIndex c fkr) ft) c.rows with
        | error e => rw [hm] at h; exact absurd h (by simp)
        | ok dicts =>
          rw [hm] at h
          injection h with h4
          refine ⟨by simpa using h1, by simpa using h2, by simpa using h3,
            dicts, rfl, h4.symm⟩

/-- The column list of the assembled output. -/
theorem buildOutput_cols (c : DFrame) (key fkl fkr : String)
    (ab aa names : List String) (dicts : List (List (String × Value))) :
    (buildOutput c key fkl fkr ab aa names dicts).cols =
      [key, fkl, fkr] ++ list_diff ab [key, fkl, fkr] ++ names ++
        (list_diff aa [key, fkl, fkr]).reverse := rfl

/-- The output has one row per zipped candidate/dict pair. -/
theorem buildOutput_rows_length (c : DFrame) (key fkl fkr : String)
    (ab aa names : List String) (dicts : List (List (String × Value)))
    (h : dicts.length = c.rows.length) :
    (buildOutput c key fkl fkr ab aa names dicts).rows.length
      = c.rows.length := by
  unfold buildOutput
  simp [h]

/-- The `i`-th output row, elementwise. -/
theorem buildOutput_row_get (c : DFrame) (key fkl fkr : String)
    (ab aa names : List String) (dicts : List (List (String × Value)))
    (i : Nat) (hi : i < c.rows.length) (hd : i < dicts.length)
    (ho : i < (buildOutput c key fkl fkr ab aa names dicts).rows.length) :
    (buildOutput c key fkl fkr ab aa names dicts).rows.get ⟨i, ho⟩ =
      [cell (c.rows.get ⟨i, hi⟩) (colIndex c key),
       cell (c.rows.get ⟨i, hi⟩) (colIndex c fkl),
       cell (c.rows.get ⟨i, hi⟩) (colIndex c fkr)]
      ++ (list_diff ab [key, fkl, fkr]).map
          (fun a => cell (c.rows.get ⟨i, hi⟩) (colIndex c a))
      ++ names.map (fun n => dictGetD (dicts.get ⟨i, hd⟩) n)
      ++ (list_diff aa [key, fkl, fkr]).reverse.map
          (fun a => cell (c.rows.get ⟨i, hi⟩) (colIndex c a)) := by
  unfold buildOutput
  simp [List.get_eq_getElem, List.getElem_map, List.getElem_zip]

/-- The pair-id column sits at position 0 of the output. -/
theorem colIndex_buildOutput_key (c : DFrame) (key fkl fkr : String)
    (ab aa names : List String) (dicts : List (List (String × Value))) :
    colIndex (buildOutput c key fkl fkr ab aa names dicts) key = 0 := by
  unfold colIndex buildOutput
  simp

/-- What a successful cache-free row resolution guarantees. -/
theorem resolveRow_ok_dest (l_df r_df : DFrame) (lkidx rkidx lidx ridx : Nat)
    (ft : FeatureTable) (row : Row) (d : List (String × Value))
    (h : resolveRow l_df r_df lkidx rkidx lidx ridx ft row = Except.ok d) :
    ∃ l_tuple r_tuple, dfIx l_df lkidx (cell row lidx) = Except.ok l_tuple ∧
      dfIx r_df rkidx (cell row ridx) = Except.ok r_tuple ∧
      apply_feat_fns l_tuple r_tuple ft = Except.ok d := by
  unfold resolveRow at h
  cases hlx : dfIx l_df lkidx (cell row lidx) with
  | error e => rw [hlx] at h; simp at h
  | ok lt =>
    rw [hlx] at h
    cases hrx : dfIx r_df rkidx (cell row ridx) with
    | error e => rw [hrx] at h; simp at h
    | ok rt =>
      rw [hrx] at h
      exact ⟨lt, rt, rfl, rfl, by simpa using h⟩

/-- What a successful `apply_feat_fns` call guarantees. -/
theorem apply_feat_fns_ok_dest (t1 t2 : Row) (ft : FeatureTable)
    (d : List (String × Value)) (h : apply_feat_fns t1 t2 ft = Except.ok d) :
    ∃ vals, applyFuncs t1 t2 ft = Except.ok vals ∧
      d = (ft.map (fun f => f.feature_name)).zip vals := by
  unfold apply_feat_fns at h
  cases ha : applyFuncs t1 t2 ft with
  | error e => rw [ha] at h; simp at h
  | ok vals =>
    rw [ha] at h
    simp only [Except.ok.injEq] at h
    exact ⟨vals, rfl, h.symm⟩

/-- C10: the memoized record resolution of `extract_feature_vecs` (the
`l_dict`/`r_dict` caches of lines 140-156) is observationally equivalent to
resolving every row's records directly from the indexed source tables: the
loop returns exactly the row dicts of the cache-free per-row resolution, in
which each row's scorers receive the directly looked-up left/right records,
so the scorer argument pairs and the output rows coincide. -/
theorem c10_memoized_resolution_equiv (l_df r_df : DFrame)
    (lkidx rkidx lidx ridx : Nat) (ft : FeatureTable) (rows : List Row) :
    extractLoop l_df r_df lkidx rkidx lidx ridx ft rows [] []
      = mapE (resolveRow l_df r_df lkidx rkidx lidx ridx ft) rows :=
  extractLoop_eq_mapE l_df r_df lkidx rkidx lidx ridx ft rows [] []
    (fun p hp => absurd hp (List.not_mem_nil p))
    (fun p hp => absurd hp (List.not_mem_nil p))

/-- C9: on equal inputs, two calls of `extract_feature_vecs` return equal
results (the embedding is a pure function of its explicit inputs; the code
reads no hidden state beyond the catalog metadata, which is an explicit
argument here, and scorers are the given deterministic functions). -/
theorem c9_deterministic (c₁ c₂ l₁ l₂ r₁ r₂ : DFrame)
    (key₁ key₂ fkl₁ fkl₂ fkr₁ fkr₂ lk₁ lk₂ rk₁ rk₂ : String)
    (ab₁ ab₂ aa₁ aa₂ : Option (List String)) (ft₁ ft₂ : Option FeatureTable)
    (hc : c₁ = c₂) (hl : l₁ = l₂) (hr : r₁ = r₂) (hkey : key₁ = key₂)
    (hfkl : fkl₁ = fkl₂) (hfkr : fkr₁ = fkr₂) (hlk : lk₁ = lk₂)
    (hrk : rk₁ = rk₂) (hab : ab₁ = ab₂) (hft : ft₁ = ft₂) (haa : aa₁ = aa₂) :
    extract_feature_vecs c₁ l₁ r₁ key₁ fkl₁ fkr₁ lk₁ rk₁ ab₁ ft₁ aa₁
      = extract_feature_vecs c₂ l₂ r₂ key₂ fkl₂ fkr₂ lk₂ rk₂ ab₂ ft₂ aa₂ := by
  subst_vars
  rfl

/-- Witness for C9 at a concrete input. -/
theorem c9_witness :
    extract_feature_vecs sampleCand sampleL sampleR "id" "lid" "rid" "lk" "rk"
        (some ["x"]) (some sampleFT) (some ["y"])
      = extract_feature_vecs sampleCand sampleL sampleR "id" "lid" "rid" "lk"
        "rk" (some ["x"]) (some sampleFT) (some ["y"]) :=
  c9_deterministic sampleCand sampleCand sampleL sampleL sampleR sampleR
    "id" "id" "lid" "lid" "rid" "rid" "lk" "lk" "rk" "rk"
    (some ["x"]) (some ["x"]) (some ["y"]) (some ["y"])
    (some sampleFT) (some sampleFT)
    rfl rfl rfl rfl rfl rfl rfl rfl rfl rfl rfl

/-- C2: a successful extraction yields one output row per candidate row, and
the output pair-id column equals the candidate pair-id column, in order. -/
theorem c2_row_count_and_pair_ids (c l r : DFrame)
    (key fkl fkr lk rk : String) (ab aa : Option (List String))
    (ft : FeatureTable) (out : DFrame)
    (h : extract_feature_vecs c l r key fkl fkr lk rk ab (some ft) aa
      = Except.ok out) :
    out.rows.length = c.rows.length ∧ dfCol out key = dfCol c key := by
  obtain ⟨-, -, -, dicts, hm, hout⟩ :=
    extract_ok_dest c l r key fkl fkr lk rk ab aa ft out h
  have hlen : dicts.length = c.rows.length := mapE_ok_length _ _ _ hm
  subst hout
  have hrl := buildOutput_rows_length c key fkl fkr (ab.getD []) (aa.getD [])
    (ft.map (fun f => f.feature_name)) dicts hlen
  refine ⟨hrl, ?_⟩
  unfold dfCol
  rw [colIndex_buildOutput_key]
  apply List.ext_getElem
  · simp [hrl]
  · intro i hi1 hi2
    simp only [List.getElem_map]
    have hi0 : i < (buildOutput c key fkl fkr (ab.getD []) (aa.getD [])
        (ft.map (fun f => f.feature_name)) dicts).rows.length := by
      simpa using hi1
    have hic : i < c.rows.length := by rw [← hrl]; exact hi0
    have hid : i < dicts.length := by rw [hlen]; exact hic
    have hrow := buildOutput_row_get c key fkl fkr (ab.getD []) (aa.getD [])
      (ft.map (fun f => f.feature_name)) dicts i hic hid hi0
    rw [List.get_eq_getElem] at hrow
    rw [hrow]
    simp [cell]

/-- Witness for C2 at a concrete input. -/
theorem c2_witness :
    outNoAttrs.rows.length = candA.rows.length ∧
      dfCol outNoAttrs "id" = dfCol candA "id" :=
  c2_row_count_and_pair_ids candA sampleL sampleR "id" "lid" "rid" "lk" "rk"
    none none sampleFT outNoAttrs rfl

/-- C3 counterexample: on a concrete accepted input with
`attrs_before = ["x"]`, `attrs_after = ["y"]` and scorers `s1`, `s2`, the
output column order is `[pair-id, left-fk, right-fk, "x", "s1", "s2", "y"]` —
the preserved-before column comes after the three key columns, not before
them as the claim states (`docstring`, lines 50-53, agrees with the code). -/
theorem c3_counterexample :
    extract_feature_vecs sampleCand sampleL sampleR "id" "lid" "rid" "lk" "rk"
        (some ["x"]) (some sampleFT) (some ["y"]) = Except.ok sampleOutFull ∧
      sampleOutFull.cols ≠ ["x", "id", "lid", "rid", "s1", "s2", "y"] :=
  ⟨rfl, by decide⟩

/-- C3 amended: for every accepted input with `attrs_before = ["x"]`,
`attrs_after = ["y"]` and two scorers named `s1`, `s2` (with `x`, `y` not
among the key columns), the output column order is exactly
`[pair-id, left-fk, right-fk, "x", "s1", "s2", "y"]`: the preserved-before
columns follow the pair-id and foreign-key columns. -/
theorem c3_amended_column_order (c l r : DFrame) (key fkl fkr lk rk : String)
    (ft : FeatureTable) (out : DFrame)
    (hnames : ft.map (fun f => f.feature_name) = ["s1", "s2"])
    (hx : ¬ (("x" : String) ∈ [key, fkl, fkr]))
    (hy : ¬ (("y" : String) ∈ [key, fkl, fkr]))
    (h : extract_feature_vecs c l r key fkl fkr lk rk (some ["x"]) (some ft)
      (some ["y"]) = Except.ok out) :
    out.cols = [key, fkl, fkr, "x", "s1", "s2", "y"] := by
  obtain ⟨-, -, -, dicts, -, hout⟩ :=
    extract_ok_dest c l r key fkl fkr lk rk (some ["x"]) (some ["y"]) ft out h
  subst hout
  rw [buildOutput_cols, hnames]
  have hx3 : ¬ ("x" : String) = key ∧ ¬ ("x" : String) = fkl ∧
      ¬ ("x" : String) = fkr := by simpa using hx
  have hy3 : ¬ ("y" : String) = key ∧ ¬ ("y" : String) = fkl ∧
      ¬ ("y" : String) = fkr := by simpa using hy
  have hdx : list_diff ["x"] [key, fkl, fkr] = ["x"] := by
    simp [list_diff, hx3.1, hx3.2.1, hx3.2.2]
  have hdy : list_diff ["y"] [key, fkl, fkr] = ["y"] := by
    simp [list_diff, hy3.1, hy3.2.1, hy3.2.2]
  simp [hdx, hdy]

/-- Witness for the amended C3 at a concrete input. -/
theorem c3_witness : sampleOutFull.cols = ["id", "lid", "rid", "x", "s1", "s2", "y"] :=
  c3_amended_column_order sampleCand sampleL sampleR "id" "lid" "rid" "lk" "rk"
    sampleFT sampleOutFull rfl (by decide) (by decide) rfl

/-- C4: when the checks pass, every candidate row before some row resolves
(and scores) successfully, and that row's left foreign-key value matches no
key of the left table, the whole call fails with `KeyError` naming exactly
that absent key (the spec's `MissingReferenceError`), and no output table is
produced. -/
theorem c4_missing_left_key (c l r : DFrame) (key fkl fkr lk rk : String)
    (ab aa : Option (List String)) (ft : FeatureTable)
    (pre post : List Row) (row : Row)
    (hab : attrsOk c ab = true) (haa : attrsOk c aa = true)
    (hv : validate_metadata_for_candset c l r key fkl fkr lk rk = true)
    (hrows : c.rows = pre ++ row :: post)
    (hpre : ∀ q ∈ pre, ∃ d, resolveRow l r (colIndex l lk) (colIndex r rk)
      (colIndex c fkl) (colIndex c fkr) ft q = Except.ok d)
    (hmiss : l.rows.find?
      (fun q => cell q (colIndex l lk) == cell row (colIndex c fkl)) = none) :
    extract_feature_vecs c l r key fkl fkr lk rk ab (some ft) aa
      = Except.error (PyErr.keyError (cell row (colIndex c fkl))) := by
  rw [extract_some_eq, if_neg (by simp [hab]), if_neg (by simp [haa]),
    if_neg (by simp [hv])]
  have hloop := extractLoop_eq_mapE l r (colIndex l lk) (colIndex r rk)
    (colIndex c fkl) (colIndex c fkr) ft c.rows [] []
    (fun p hp => absurd hp (List.not_mem_nil p))
    (fun p hp => absurd hp (List.not_mem_nil p))
  rw [hloop, hrows]
  have hdf : dfIx l (colIndex l lk) (cell row (colIndex c fkl))
      = Except.error (PyErr.keyError (cell row (colIndex c fkl))) := by
    unfold dfIx
    rw [hmiss]
  have hrow : resolveRow l r (colIndex l lk) (colIndex r rk) (colIndex c fkl)
      (colIndex c fkr) ft row
      = Except.error (PyErr.keyError (cell row (colIndex c fkl))) := by
    unfold resolveRow
    rw [hdf]
  rw [mapE_append_error _ _ pre row post hpre hrow]

/-- Witness for C4: the second pair of `candMissL` references the absent
left key `9`; the call fails with `KeyError 9` and yields no table. -/
theorem c4_witness :
    extract_feature_vecs candMissL sampleL sampleR "id" "lid" "rid" "lk" "rk"
        none (some sampleFT) none
      = Except.error (PyErr.keyError (Value.int 9)) :=
  c4_missing_left_key candMissL sampleL sampleR "id" "lid" "rid" "lk" "rk"
    none none sampleFT [[Value.int 1, Value.int 1, Value.int 1]] []
    [Value.int 2, Value.int 9, Value.int 1] rfl rfl rfl rfl
    (fun q hq => by
      rw [List.mem_singleton] at hq
      subst hq
      exact ⟨_, rfl⟩)
    rfl

/-- C5 counterexample: on two inputs that differ only in which candidate
pair the failing scorer hits first (pair-id 1 in `candA`, pair-id 2 in
`candB`), the call returns the scorer's raw exception unchanged — the same
error value in both runs.  The error therefore neither wraps the failure in
a dedicated scorer-error kind nor identifies the offending pair-id or scorer
name, refuting the claim; only the fail-fast part holds. -/
theorem c5_counterexample :
    extract_feature_vecs candA sampleL sampleR "id" "lid" "rid" "lk" "rk"
        none (some [featBoom]) none = Except.error (PyErr.other ("boom")) ∧
    extract_feature_vecs candB sampleL sampleR "id" "lid" "rid" "lk" "rk"
        none (some [featBoom]) none = Except.error (PyErr.other ("boom")) ∧
    cell (candA.rows.getD 0 []) 0 ≠ cell (candB.rows.getD 0 []) 0 :=
  ⟨rfl, rfl, by decide⟩

/-- C5 amended: when a scorer raises on some candidate pair (the checks
passing, all earlier rows resolving and scoring successfully, the row's two
records resolving, and all earlier scorers of that row succeeding), the call
fails fast with exactly the scorer's own exception, unwrapped — no partial
row is emitted, and no pair-id or scorer name is attached to the error. -/
theorem c5_scorer_error_propagates (c l r : DFrame)
    (key fkl fkr lk rk : String) (ab aa : Option (List String))
    (ft : FeatureTable) (pre post : List Row) (row l_tuple r_tuple : Row)
    (fpre fpost : List Feature) (f : Feature) (e : PyErr)
    (hab : attrsOk c ab = true) (haa : attrsOk c aa = true)
    (hv : validate_metadata_for_candset c l r key fkl fkr lk rk = true)
    (hrows : c.rows = pre ++ row :: post)
    (hpre : ∀ q ∈ pre, ∃ d, resolveRow l r (colIndex l lk) (colIndex r rk)
      (colIndex c fkl) (colIndex c fkr) ft q = Except.ok d)
    (hl : dfIx l (colIndex l lk) (cell row (colIndex c fkl))
      = Except.ok l_tuple)
    (hr2 : dfIx r (colIndex r rk) (cell row (colIndex c fkr))
      = Except.ok r_tuple)
    (hft : ft = fpre ++ f :: fpost)
    (hfpre : ∀ g ∈ fpre, ∃ v, g.function l_tuple r_tuple = Except.ok v)
    (hf : f.function l_tuple r_tuple = Except.error e) :
    extract_feature_vecs c l r key fkl fkr lk rk ab (some ft) aa
      = Except.error e := by
  rw [extract_some_eq, if_neg (by simp [hab]), if_neg (by simp [haa]),
    if_neg (by simp [hv])]
  have hloop := extractLoop_eq_mapE l r (colIndex l lk) (colIndex r rk)
    (colIndex c fkl) (colIndex c fkr) ft c.rows [] []
    (fun p hp => absurd hp (List.not_mem_nil p))
    (fun p hp => absurd hp (List.not_mem_nil p))
  rw [hloop, hrows]
  have happ : applyFuncs l_tuple r_tuple ft = Except.error e := by
    rw [applyFuncs_eq_mapE, hft]
    exact mapE_append_error _ _ fpre f fpost hfpre hf
  have haf : apply_feat_fns l_tuple r_tuple ft = Except.error e := by
    unfold apply_feat_fns
    rw [happ]
  have hrow : resolveRow l r (colIndex l lk) (colIndex r rk) (colIndex c fkl)
      (colIndex c fkr) ft row = Except.error e := by
    simp [resolveRow, hl, hr2, haf]
  rw [mapE_append_error _ _ pre row post hpre hrow]

/-- Witness for the amended C5 at a concrete input. -/
theorem c5_witness :
    extract_feature_vecs candA sampleL sampleR "id" "lid" "rid" "lk" "rk"
        none (some [featBoom]) none = Except.error (PyErr.other ("boom")) :=
  c5_scorer_error_propagates candA sampleL sampleR "id" "lid" "rid" "lk" "rk"
    none none [featBoom] [] [[Value.int 2, Value.int 2, Value.int 1]]
    [Value.int 1, Value.int 1, Value.int 1]
    [Value.int 1, Value.str ("a")] [Value.int 1, Value.str ("a")]
    [] [] featBoom (PyErr.other ("boom"))
    rfl rfl rfl rfl
    (fun q hq => absurd hq (List.not_mem_nil q))
    rfl rfl rfl
    (fun g hg => absurd hg (List.not_mem_nil g))
    rfl

/-- C6 counterexample: an empty scorer list (empty feature table, not
`None`) is accepted rather than rejected — the call succeeds and returns a
table with the three key columns and no score columns, where the claim
demands an `InvalidInputError`-style failure. -/
theorem c6_counterexample :
    extract_feature_vecs sampleCand sampleL sampleR "id" "lid" "rid" "lk" "rk"
        none (some []) none = Except.ok outEmptyFT :=
  rfl

/-- C6 amended: shape violations fail with `AssertionError` (the code's
`InvalidInputError`): a `attrs_before` name absent from the candidate
columns, an `attrs_after` name absent from the candidate columns, and an
absent (`None`) feature table each raise it; an *empty* scorer list,
however, is accepted (see the counterexample), and a non-tabular candidate
set is a host-language type error outside this embedding. -/
theorem c6_shape_validation (c l r : DFrame) (key fkl fkr lk rk : String)
    (ab aa : Option (List String)) (ftO : Option FeatureTable) :
    (attrsOk c ab = false →
      extract_feature_vecs c l r key fkl fkr lk rk ab ftO aa
        = Except.error (PyErr.assertionError msg_attrs_before)) ∧
    (attrsOk c ab = true → attrsOk c aa = false →
      extract_feature_vecs c l r key fkl fkr lk rk ab ftO aa
        = Except.error (PyErr.assertionError msg_attrs_after)) ∧
    (attrsOk c ab = true → attrsOk c aa = true →
      extract_feature_vecs c l r key fkl fkr lk rk ab none aa
        = Except.error (PyErr.assertionError msg_feature_table)) := by
  refine ⟨fun h1 => ?_, fun h1 h2 => ?_, fun h1 h2 => ?_⟩
  · unfold extract_feature_vecs
    rw [if_pos h1]
  · unfold extract_feature_vecs
    rw [if_neg (by simp [h1]), if_pos h2]
  · unfold extract_feature_vecs
    rw [if_neg (by simp [h1]), if_neg (by simp [h2])]

/-- Witness for the amended C6 at concrete inputs (a missing
`attrs_before` column, a missing `attrs_after` column, a `None` feature
table). -/
theorem c6_witness :
    extract_feature_vecs sampleCand sampleL sampleR "id" "lid" "rid" "lk" "rk"
        (some ["zz"]) (some sampleFT) none
      = Except.error (PyErr.assertionError msg_attrs_before) ∧
    extract_feature_vecs sampleCand sampleL sampleR "id" "lid" "rid" "lk" "rk"
        none (some sampleFT) (some ["zz"])
      = Except.error (PyErr.assertionError msg_attrs_after) ∧
    extract_feature_vecs sampleCand sampleL sampleR "id" "lid" "rid" "lk" "rk"
        none none none
      = Except.error (PyErr.assertionError msg_feature_table) :=
  ⟨(c6_shape_validation sampleCand sampleL sampleR "id" "lid" "rid" "lk" "rk"
      (some ["zz"]) none (some sampleFT)).1 rfl,
   (c6_shape_validation sampleCand sampleL sampleR "id" "lid" "rid" "lk" "rk"
      none (some ["zz"]) (some sampleFT)).2.1 rfl rfl,
   (c6_shape_validation sampleCand sampleL sampleR "id" "lid" "rid" "lk" "rk"
      none none none).2.2 rfl rfl⟩

/-- C7 counterexample: with `attrs_before = ["id"]` — the pair-id column
itself — the call does not fail: it silently drops the overlapping name
(`gh.list_diff` on line 175) and succeeds, the pair-id appearing once, where
the claim demands rejection with `InvalidInputError`. -/
theorem c7_counterexample :
    extract_feature_vecs sampleCand sampleL sampleR "id" "lid" "rid" "lk" "rk"
        (some ["id"]) (some sampleFT) none = Except.ok outNoAttrs ∧
      outNoAttrs.cols = ["id", "lid", "rid", "s1", "s2"] :=
  ⟨rfl, rfl⟩

/-- C7 amended: names in `attrs_before`/`attrs_after` that equal the
pair-id or a foreign-key column are silently removed (`list_diff`) and the
call proceeds; the output columns are the three key columns, the surviving
preserved-before names, the scorer names, then the surviving
preserved-after names (reversed by the insertion loop). -/
theorem c7_overlap_silently_dropped (c l r : DFrame)
    (key fkl fkr lk rk : String) (bs : List String)
    (aa : Option (List String)) (ft : FeatureTable) (out : DFrame)
    (h : extract_feature_vecs c l r key fkl fkr lk rk (some bs) (some ft) aa
      = Except.ok out) :
    out.cols = [key, fkl, fkr] ++ list_diff bs [key, fkl, fkr]
      ++ ft.map (fun f => f.feature_name)
      ++ (list_diff (aa.getD []) [key, fkl, fkr]).reverse := by
  obtain ⟨-, -, -, dicts, -, hout⟩ :=
    extract_ok_dest c l r key fkl fkr lk rk (some bs) aa ft out h
  subst hout
  rfl

/-- Witness for the amended C7 at a concrete input: `["id"]` is cut down to
`[]` by `list_diff`, so the pair-id column appears only once. -/
theorem c7_witness :
    outNoAttrs.cols = ["id", "lid", "rid"] ++ list_diff ["id"] ["id", "lid", "rid"]
      ++ sampleFT.map (fun f => f.feature_name)
      ++ (list_diff ((none : Option (List String)).getD [])
          ["id", "lid", "rid"]).reverse :=
  c7_overlap_silently_dropped sampleCand sampleL sampleR "id" "lid" "rid"
    "lk" "rk" ["id"] none sampleFT outNoAttrs rfl

/-- Reading the `j`-th element of the middle block of a concatenated row. -/
theorem cell_concat_get (p q rest : List Value) (j : Nat) (hq : j < q.length) :
    cell ((p ++ q) ++ rest) (p.length + j) = q.get ⟨j, hq⟩ := by
  unfold cell
  have h1 : p.length + j < (p ++ q).length := by
    simp only [List.length_append]
    omega
  rw [List.getD_append _ _ _ _ h1]
  rw [List.getD_append_right p q vdefault _ (Nat.le_add_right _ _)]
  rw [Nat.add_sub_cancel_left, List.get_eq_getElem]
  exact List.getD_eq_getElem q vdefault hq

/-- C1: on a successful call with uniquely named scorers, every output row
carries, for the `j`-th scorer, exactly the value of that scorer applied to
the records resolved by the row's left and right foreign keys — the score
block sits after the three key columns and the preserved-before columns, in
declared scorer order. -/
theorem c1_score_columns_correct (c l r : DFrame) (key fkl fkr lk rk : String)
    (ab aa : Option (List String)) (ft : FeatureTable) (out : DFrame)
    (hnd : (ft.map (fun f => f.feature_name)).Nodup)
    (h : extract_feature_vecs c l r key fkl fkr lk rk ab (some ft) aa
      = Except.ok out)
    (i : Nat) (hi : i < c.rows.length) :
    ∃ l_tuple r_tuple,
      dfIx l (colIndex l lk) (cell (c.rows.get ⟨i, hi⟩) (colIndex c fkl))
        = Except.ok l_tuple ∧
      dfIx r (colIndex r rk) (cell (c.rows.get ⟨i, hi⟩) (colIndex c fkr))
        = Except.ok r_tuple ∧
      ∃ ho : i < out.rows.length,
        ∀ j (hj : j < ft.length),
          (ft.get ⟨j, hj⟩).function l_tuple r_tuple
            = Except.ok (cell (out.rows.get ⟨i, ho⟩)
                (3 + (list_diff (ab.getD []) [key, fkl, fkr]).length + j)) := by
  obtain ⟨-, -, -, dicts, hm, hout⟩ :=
    extract_ok_dest c l r key fkl fkr lk rk ab aa ft out h
  have hlen : dicts.length = c.rows.length := mapE_ok_length _ _ _ hm
  have hd : i < dicts.length := by rw [hlen]; exact hi
  have hres := mapE_ok_get _ _ _ hm i hi hd
  obtain ⟨lt, rt, hlx, hrx, haf⟩ := resolveRow_ok_dest l r (colIndex l lk)
    (colIndex r rk) (colIndex c fkl) (colIndex c fkr) ft
    (c.rows.get ⟨i, hi⟩) (dicts.get ⟨i, hd⟩) hres
  obtain ⟨vals, hvals, hdict⟩ :=
    apply_feat_fns_ok_dest lt rt ft (dicts.get ⟨i, hd⟩) haf
  have hvlen : vals.length = ft.length :=
    mapE_ok_length (fun g => g.function lt rt) ft vals
      (by rw [← applyFuncs_eq_mapE]; exact hvals)
  subst hout
  have hrl := buildOutput_rows_length c key fkl fkr (ab.getD []) (aa.getD [])
    (ft.map (fun f => f.feature_name)) dicts hlen
  have ho : i < (buildOutput c key fkl fkr (ab.getD []) (aa.getD [])
      (ft.map (fun f => f.feature_name)) dicts).rows.length := by
    rw [hrl]
    exact hi
  refine ⟨lt, rt, hlx, hrx, ho, ?_⟩
  intro j hj
  have hjv : j < vals.length := by rw [hvlen]; exact hj
  have hfun := mapE_ok_get (fun g => g.function lt rt) ft vals
    (by rw [← applyFuncs_eq_mapE]; exact hvals) j hj hjv
  have hrow := buildOutput_row_get c key fkl fkr (ab.getD []) (aa.getD [])
    (ft.map (fun f => f.feature_name)) dicts i hi hd ho
  rw [hrow]
  have hL3 : (ft.map (fun f => f.feature_name)).map
      (fun n => dictGetD (dicts.get ⟨i, hd⟩) n) = vals := by
    rw [hdict]
    exact map_dictGetD_zip _ vals hnd (by simp [hvlen])
  rw [hL3]
  have hcell := cell_concat_get
    ([cell (c.rows.get ⟨i, hi⟩) (colIndex c key),
      cell (c.rows.get ⟨i, hi⟩) (colIndex c fkl),
      cell (c.rows.get ⟨i, hi⟩) (colIndex c fkr)]
      ++ (list_diff (ab.getD []) [key, fkl, fkr]).map
          (fun a => cell (c.rows.get ⟨i, hi⟩) (colIndex c a)))
    vals
    ((list_diff (aa.getD []) [key, fkl, fkr]).reverse.map
      (fun a => cell (c.rows.get ⟨i, hi⟩) (colIndex c a)))
    j hjv
  have hplen : ([cell (c.rows.get ⟨i, hi⟩) (colIndex c key),
      cell (c.rows.get ⟨i, hi⟩) (colIndex c fkl),
      cell (c.rows.get ⟨i, hi⟩) (colIndex c fkr)]
      ++ (list_diff (ab.getD []) [key, fkl, fkr]).map
          (fun a => cell (c.rows.get ⟨i, hi⟩) (colIndex c a))).length
      = 3 + (list_diff (ab.getD []) [key, fkl, fkr]).length := by
    simp [List.length_append]
    omega
  rw [hplen] at hcell
  rw [hcell]
  exact hfun

/-- Witness for C1 at a concrete input (first candidate pair of the sample). -/
theorem c1_witness :
    ∃ l_tuple r_tuple,
      dfIx sampleL (colIndex sampleL "lk")
          (cell (sampleCand.rows.get ⟨0, by decide⟩) (colIndex sampleCand "lid"))
        = Except.ok l_tuple ∧
      dfIx sampleR (colIndex sampleR "rk")
          (cell (sampleCand.rows.get ⟨0, by decide⟩) (colIndex sampleCand "rid"))
        = Except.ok r_tuple ∧
      ∃ ho : 0 < sampleOutFull.rows.length,
        ∀ j (hj : j < sampleFT.length),
          (sampleFT.get ⟨j, hj⟩).function l_tuple r_tuple
            = Except.ok (cell (sampleOutFull.rows.get ⟨0, ho⟩)
                (3 + (list_diff ((some ["x"] : Option (List String)).getD [])
                  ["id", "lid", "rid"]).length + j)) :=
  c1_score_columns_correct sampleCand sampleL sampleR "id" "lid" "rid" "lk"
    "rk" (some ["x"]) (some ["y"]) sampleFT sampleOutFull (by decide) rfl
    0 (by decide)
